import Mathlib

/-!
Verification of the API-key record core (`meilisearch-auth/src/key.rs`):
construction and update of key records from untyped JSON-like input,
opaque identifier generation, and multi-format expiration-date parsing.

The clock (`OffsetDateTime::now_utc()`) is passed explicitly as an integer
timestamp `now` (nanoseconds since an arbitrary epoch), and the random
source (`rand::thread_rng()`) as an explicit function `rand : Nat → Nat`,
following the spec's dependency-injection note.
-/

namespace KeyCore

/-- JSON-like dynamic value (`serde_json::Value`); numbers are modelled as
integers, which suffices for the validation logic (no field accepts a
fractional number). -/
inductive Value where
  | null : Value
  | bool : Bool → Value
  | num : Int → Value
  | str : String → Value
  | arr : List Value → Value
  | obj : List (String × Value) → Value

/-- `serde_json::Value::get(key)`: `Some` on an object containing the key,
`None` on any other shape. -/
def Value.get : Value → String → Option Value
  | .obj kvs, k => kvs.lookup k
  | _, _ => none

/-- Modelled from the spec: the capability-tag type (`Action`, from the
missing `action.rs`) is a closed externally defined enumeration; only the
two variants named by the spec's default-key roles are needed here. -/
inductive Action where
  | all : Action
  | search : Action
deriving DecidableEq, Repr

/-- Modelled from the spec: serde decoding of a single capability tag from
its string name (tag strings per the glossary: "all"/"search"; any
non-matching shape fails). -/
def Action.fromValue : Value → Option Action
  | .str "all" => some .all
  | .str "search" => some .search
  | _ => none

/-- Modelled from the spec: the error taxonomy (`AuthControllerError`, from
the missing `error.rs`); each invalid-field variant carries the offending
raw value, `MissingParameter` carries the field name. -/
inductive AuthControllerError where
  | missingParameter : String → AuthControllerError
  | invalidApiKeyDescription : Value → AuthControllerError
  | invalidApiKeyActions : Value → AuthControllerError
  | invalidApiKeyIndexes : Value → AuthControllerError
  | invalidApiKeyExpiresAt : Value → AuthControllerError

/-- Modelled from the spec: `KEY_ID_LENGTH` (from the missing `store.rs`)
is 64, the fixed identifier length. -/
def KEY_ID_LENGTH : Nat := 64

/-- The identifier alphabet, verbatim from `generate_id`'s `CHARSET`. -/
def CHARSET : List Char :=
  "abcdefghijklmnopqrstuvwxyz0123456789ABCDEFGHIJKLMNOPQRSTUVWXYZ".toList

/-- `generate_id`: one character per position, each indexed by the random
source reduced into `0 .. CHARSET.length - 1` (the contract of
`rng.gen_range(0..CHARSET.len())`). -/
def generate_id (rand : Nat → Nat) : List Char :=
  (List.range KEY_ID_LENGTH).map fun i => CHARSET.getD (rand i % 62) 'A'

/-- The key record (`struct Key`); timestamps are integers (nanoseconds). -/
structure Key where
  description : Option String
  id : List Char
  actions : List Action
  indexes : List String
  expires_at : Option Int
  created_at : Int
  updated_at : Int
deriving DecidableEq, Repr

/-! ### Date parsing primitives

These model the external `time` crate parsers that `parse_expiration_date`
calls: RFC 3339 (`well_known::Rfc3339`) and the three `format_description`
patterns (`YYYY-MM-DDTHH:MM:SS`, `YYYY-MM-DD HH:MM:SS`, `YYYY-MM-DD`).
All parse over the string's character list, returning the unconsumed rest.
-/

/-- Parse exactly `n` decimal digits, most significant first. -/
def parseDigitsAux : Nat → Nat → List Char → Option (Nat × List Char)
  | 0, acc, l => some (acc, l)
  | _ + 1, _, [] => none
  | n + 1, acc, c :: l =>
    if c.isDigit then parseDigitsAux n (acc * 10 + (c.toNat - 48)) l else none

def parseNDigits (n : Nat) (l : List Char) : Option (Nat × List Char) :=
  parseDigitsAux n 0 l

/-- Consume one expected literal character. -/
def parseLit (c : Char) : List Char → Option (List Char)
  | [] => none
  | x :: l => if x = c then some l else none

def isLeap (y : Nat) : Bool :=
  y % 4 = 0 && (y % 100 ≠ 0 || y % 400 = 0)

def daysInMonth (y m : Nat) : Nat :=
  if m = 2 then (if isLeap y then 29 else 28)
  else if m = 4 || m = 6 || m = 9 || m = 11 then 30
  else 31

/-- Days from 1970-01-01 to the given civil date (may be negative). -/
def daysFromCivil (y m d : Nat) : Int :=
  let y' : Int := (y : Int) - (if m ≤ 2 then 1 else 0)
  let era : Int := (if 0 ≤ y' then y' else y' - 399) / 400
  let yoe : Int := y' - era * 400
  let mp : Nat := (m + 9) % 12
  let doy : Int := ((153 * mp + 2) / 5 + d - 1 : Nat)
  let doe : Int := yoe * 365 + yoe / 4 - yoe / 100 + doy
  era * 146097 + doe - 719468

/-- Timestamp in nanoseconds since the Unix epoch for the given civil
date-time at the given UTC offset (in seconds), plus sub-second nanos. -/
def timestampOf (y m d h mi s : Nat) (offsetSec : Int) (nanos : Nat) : Int :=
  (daysFromCivil y m d * 86400 + ((h * 3600 + mi * 60 + s : Nat) : Int) - offsetSec)
    * 1000000000 + (nanos : Int)

/-- Parse `YYYY-MM-DD` (4-2-2 zero-padded digits) and validate the calendar
date, as the `time` crate's date parsing does. -/
def parseDate (l : List Char) : Option ((Nat × Nat × Nat) × List Char) :=
  match parseNDigits 4 l with
  | none => none
  | some (y, l1) =>
    match parseLit '-' l1 with
    | none => none
    | some l2 =>
      match parseNDigits 2 l2 with
      | none => none
      | some (m, l3) =>
        match parseLit '-' l3 with
        | none => none
        | some l4 =>
          match parseNDigits 2 l4 with
          | none => none
          | some (d, l5) =>
            if 1 ≤ m ∧ m ≤ 12 ∧ 1 ≤ d ∧ d ≤ daysInMonth y m then
              some ((y, m, d), l5)
            else none

/-- Parse `HH:MM:SS` and validate the component ranges. -/
def parseTime (l : List Char) : Option ((Nat × Nat × Nat) × List Char) :=
  match parseNDigits 2 l with
  | none => none
  | some (h, l1) =>
    match parseLit ':' l1 with
    | none => none
    | some l2 =>
      match parseNDigits 2 l2 with
      | none => none
      | some (mi, l3) =>
        match parseLit ':' l3 with
        | none => none
        | some l4 =>
          match parseNDigits 2 l4 with
          | none => none
          | some (s, l5) =>
            if h ≤ 23 ∧ mi ≤ 59 ∧ s ≤ 59 then some ((h, mi, s), l5) else none

/-- Digits of an optional fractional-second part. -/
def spanDigits : List Char → List Char × List Char
  | [] => ([], [])
  | c :: l =>
    if c.isDigit then
      let (ds, rest) := spanDigits l
      (c :: ds, rest)
    else ([], c :: l)

/-- Value in nanoseconds of a fractional-second digit string (first nine
digits are significant). -/
def nanosOfDigits (ds : List Char) : Nat :=
  ((ds.take 9).foldl (fun acc c => acc * 10 + (c.toNat - 48)) 0)
    * 10 ^ (9 - min ds.length 9)

/-- Optional RFC 3339 fractional seconds: `.` followed by at least one
digit; absent fraction contributes zero nanoseconds. -/
def parseFraction : List Char → Option (Nat × List Char)
  | '.' :: l =>
    match spanDigits l with
    | ([], _) => none
    | (ds, rest) => some (nanosOfDigits ds, rest)
  | l => some (0, l)

/-- RFC 3339 offset: `Z`/`z` or `±HH:MM`. -/
def parseOffset : List Char → Option (Int × List Char)
  | 'Z' :: l => some (0, l)
  | 'z' :: l => some (0, l)
  | '+' :: l =>
    match parseTime ('0' :: '0' :: ':' :: l) with
    | some ((_, h, mi), rest) => some ((h * 3600 + mi * 60 : Nat), rest)
    | none => none
  | '-' :: l =>
    match parseTime ('0' :: '0' :: ':' :: l) with
    | some ((_, h, mi), rest) => some (-((h * 3600 + mi * 60 : Nat) : Int), rest)
    | none => none
  | _ => none

/-- `OffsetDateTime::parse(string, &Rfc3339)`: full date-time with a
mandatory offset; the `T` separator is case-insensitive. -/
def parseRfc3339 (s : String) : Option Int :=
  match parseDate s.toList with
  | none => none
  | some ((y, m, d), l1) =>
    match (parseLit 'T' l1).orElse fun _ => parseLit 't' l1 with
    | none => none
    | some l2 =>
      match parseTime l2 with
      | none => none
      | some ((h, mi, sec), l3) =>
        match parseFraction l3 with
        | none => none
        | some (nanos, l4) =>
          match parseOffset l4 with
          | some (off, []) => some (timestampOf y m d h mi sec off nanos)
          | _ => none

/-- `PrimitiveDateTime::parse` against `[date]<sep>[time]`, assumed UTC. -/
def parsePrimSep (sep : Char) (s : String) : Option Int :=
  match parseDate s.toList with
  | none => none
  | some ((y, m, d), l1) =>
    match parseLit sep l1 with
    | none => none
    | some l2 =>
      match parseTime l2 with
      | some ((h, mi, sec), []) => some (timestampOf y m d h mi sec 0 0)
      | _ => none

/-- `Date::parse` against `[date]`, taken at UTC midnight. -/
def parseDateOnly (s : String) : Option Int :=
  match parseDate s.toList with
  | some ((y, m, d), []) => some (timestampOf y m d 0 0 0 0 0)
  | _ => none

/-- The `or_else` fallback chain of `parse_expiration_date`, in source
order: RFC 3339, then `T`-separated, then space-separated, then date-only. -/
def tryFormats (s : String) : Option Int :=
  (((parseRfc3339 s).orElse fun _ => parsePrimSep 'T' s).orElse
    fun _ => parsePrimSep ' ' s).orElse fun _ => parseDateOnly s

/-- `parse_expiration_date`: strings go through the format chain and must
be strictly in the future; null means no expiration; anything else is
invalid. -/
def parse_expiration_date (now : Int) (value : Value) :
    Except AuthControllerError (Option Int) :=
  match value with
  | .str s =>
    match tryFormats s with
    | none => .error (.invalidApiKeyExpiresAt value)
    | some d =>
      if now < d then .ok (some d)
      else .error (.invalidApiKeyExpiresAt value)
  | .null => .ok none
  | _ => .error (.invalidApiKeyExpiresAt value)

/-! ### Field decoders (`serde_json::from_value` at the fields' types) -/

/-- `from_value::<Option<String>>`: null decodes to `None`, a string to
`Some`, anything else fails. -/
def optStringFromValue : Value → Option (Option String)
  | .null => some none
  | .str s => some (some s)
  | _ => none

/-- `from_value::<Vec<Action>>`: an array whose every element decodes as a
capability tag. -/
def actionsFromValue : Value → Option (List Action)
  | .arr l => l.mapM Action.fromValue
  | _ => none

/-- `from_value::<Vec<String>>`: an array whose every element is a string. -/
def indexesFromValue : Value → Option (List String)
  | .arr l => l.mapM fun v => match v with | .str s => some s | _ => none
  | _ => none

/-- The `description` extraction at the top of `create_from_value`:
absent or explicit-null key gives `None`, otherwise the value must decode
as a string. -/
def descFromCreate (value : Value) : Except AuthControllerError (Option String) :=
  match value.get "description" with
  | some .null => .ok none
  | some des =>
    match optStringFromValue des with
    | some d => .ok d
    | none => .error (.invalidApiKeyDescription des)
  | none => .ok none

/-- `Key::create_from_value`, with the clock and random source passed in;
fields are extracted in source order (description, then id generation,
actions, indexes, expiresAt), failing fast. -/
def create_from_value (rand : Nat → Nat) (now : Int) (value : Value) :
    Except AuthControllerError Key :=
  match descFromCreate value with
  | .error e => .error e
  | .ok description =>
    let id := generate_id rand
    match value.get "actions" with
    | none => .error (.missingParameter "actions")
    | some act =>
      match actionsFromValue act with
      | none => .error (.invalidApiKeyActions act)
      | some actions =>
        match value.get "indexes" with
        | none => .error (.missingParameter "indexes")
        | some ind =>
          match indexesFromValue ind with
          | none => .error (.invalidApiKeyIndexes ind)
          | some indexes =>
            match value.get "expiresAt" with
            | none => .error (.missingParameter "expiresAt")
            | some exp =>
              match parse_expiration_date now exp with
              | .error e => .error e
              | .ok expires_at =>
                .ok { description := description, id := id,
                      actions := actions, indexes := indexes,
                      expires_at := expires_at,
                      created_at := now, updated_at := now }

/-! ### `Key::update_from_value`

The Rust method mutates `&mut self` and returns `Result<()>`; an early
`?` return leaves mutations already applied in place.  The embedding
returns the error (if any) together with the record state at return time.
The fields are processed in source order: description, actions, indexes,
expiresAt; `updated_at` is refreshed only when every present field
validated. -/

def updateExpiresStep (self : Key) (value : Value) (now : Int) :
    Option AuthControllerError × Key :=
  match value.get "expiresAt" with
  | some exp =>
    match parse_expiration_date now exp with
    | .ok e => (none, { self with expires_at := e, updated_at := now })
    | .error err => (some err, self)
  | none => (none, { self with updated_at := now })

def updateIndexesStep (self : Key) (value : Value) (now : Int) :
    Option AuthControllerError × Key :=
  match value.get "indexes" with
  | some ind =>
    match indexesFromValue ind with
    | some l => updateExpiresStep { self with indexes := l } value now
    | none => (some (.invalidApiKeyIndexes ind), self)
  | none => updateExpiresStep self value now

def updateActionsStep (self : Key) (value : Value) (now : Int) :
    Option AuthControllerError × Key :=
  match value.get "actions" with
  | some act =>
    match actionsFromValue act with
    | some a => updateIndexesStep { self with actions := a } value now
    | none => (some (.invalidApiKeyActions act), self)
  | none => updateIndexesStep self value now

def update_from_value (self : Key) (value : Value) (now : Int) :
    Option AuthControllerError × Key :=
  match value.get "description" with
  | some des =>
    match optStringFromValue des with
    | some d => updateActionsStep { self with description := d } value now
    | none => (some (.invalidApiKeyDescription des), self)
  | none => updateActionsStep self value now

/-- `Key::default_admin`. -/
def default_admin (rand : Nat → Nat) (now : Int) : Key :=
  { description := some "Default Admin API Key (Use it for all other operations. Caution! Do not use it on a public frontend)",
    id := generate_id rand,
    actions := [.all],
    indexes := ["*"],
    expires_at := none,
    created_at := now,
    updated_at := now }

/-- `Key::default_search`. -/
def default_search (rand : Nat → Nat) (now : Int) : Key :=
  { description := some "Default Search API Key (Use it to search from the frontend)",
    id := generate_id rand,
    actions := [.search],
    indexes := ["*"],
    expires_at := none,
    created_at := now,
    updated_at := now }

/-! ### Basic facts about the identifier generator -/

theorem generate_id_length (rand : Nat → Nat) :
    (generate_id rand).length = KEY_ID_LENGTH := by
  simp [generate_id]

theorem CHARSET_length : CHARSET.length = 62 := by decide

theorem CHARSET_nodup : CHARSET.Nodup := by decide

theorem generate_id_mem (rand : Nat → Nat) (c : Char)
    (h : c ∈ generate_id rand) : c ∈ CHARSET := by
  simp only [generate_id, List.mem_map, List.mem_range] at h
  obtain ⟨i, _, rfl⟩ := h
  have hlt : rand i % 62 < CHARSET.length := by
    rw [CHARSET_length]; exact Nat.mod_lt _ (by norm_num)
  rw [List.getD_eq_getElem CHARSET 'A' hlt]
  exact List.getElem_mem hlt

theorem generate_id_getD (rand : Nat → Nat) (i : Nat) (h : i < KEY_ID_LENGTH) :
    (generate_id rand).getD i 'A' = CHARSET.getD (rand i % 62) 'A' := by
  have hlen : i < (generate_id rand).length := by
    rw [generate_id_length]; exact h
  rw [List.getD_eq_getElem _ 'A' hlen]
  simp [generate_id]

theorem generate_id_ne (r1 r2 : Nat → Nat) (i : Nat) (hi : i < KEY_ID_LENGTH)
    (hne : r1 i % 62 ≠ r2 i % 62) : generate_id r1 ≠ generate_id r2 := by
  intro heq
  have h1 : r1 i % 62 < CHARSET.length := by
    rw [CHARSET_length]; exact Nat.mod_lt _ (by norm_num)
  have h2 : r2 i % 62 < CHARSET.length := by
    rw [CHARSET_length]; exact Nat.mod_lt _ (by norm_num)
  have hget : (generate_id r1).getD i 'A' = (generate_id r2).getD i 'A' := by
    rw [heq]
  rw [generate_id_getD r1 i hi, generate_id_getD r2 i hi,
    List.getD_eq_getElem CHARSET 'A' h1, List.getD_eq_getElem CHARSET 'A' h2] at hget
  exact hne (CHARSET_nodup.getElem_inj_iff.mp hget)

/-! ### Claim theorems -/

/-- C1: for every creation input whose `description` entry is valid and
whose `actions`, `indexes`, `expiresAt` entries are present with valid
values (`expiresAt` possibly null), `create_from_value` succeeds with an
id of exactly 64 characters drawn from the 62-symbol alphabet
`[a-z0-9A-Z]`, and `created_at = updated_at`. -/
theorem create_valid_input_id_shape (rand : Nat → Nat) (now : Int) (v : Value)
    (dsc : Option String) (act ind exp : Value) (as : List Action)
    (is : List String) (ea : Option Int)
    (hd : descFromCreate v = .ok dsc)
    (ha : v.get "actions" = some act) (ha2 : actionsFromValue act = some as)
    (hi : v.get "indexes" = some ind) (hi2 : indexesFromValue ind = some is)
    (he : v.get "expiresAt" = some exp)
    (he2 : parse_expiration_date now exp = .ok ea) :
    ∃ k : Key, create_from_value rand now v = .ok k ∧
      k.id.length = 64 ∧ (∀ c ∈ k.id, c ∈ CHARSET) ∧
      CHARSET.length = 62 ∧ CHARSET.Nodup ∧
      k.created_at = k.updated_at := by
  refine ⟨{ description := dsc, id := generate_id rand, actions := as,
            indexes := is, expires_at := ea,
            created_at := now, updated_at := now }, ?_, ?_, ?_, ?_, ?_, rfl⟩
  · simp only [create_from_value, hd, ha, ha2, hi, hi2, he, he2]
  · exact generate_id_length rand
  · exact fun c hc => generate_id_mem rand c hc
  · exact CHARSET_length
  · exact CHARSET_nodup

/-- C1 witness: a concrete valid creation input. -/
theorem create_valid_input_id_shape_witness :
    ∃ k : Key,
      create_from_value (fun _ => 0) 0
        (.obj [("actions", .arr [.str "search"]), ("indexes", .arr [.str "*"]),
               ("expiresAt", .null)]) = .ok k ∧
      k.id.length = 64 ∧ (∀ c ∈ k.id, c ∈ CHARSET) ∧
      CHARSET.length = 62 ∧ CHARSET.Nodup ∧
      k.created_at = k.updated_at :=
  create_valid_input_id_shape (fun _ => 0) 0 _ none _ _ .null [.search] ["*"]
    none rfl rfl rfl rfl rfl rfl rfl

/-- C5 counterexample: in the input `{"description": 42}` the key
`"actions"` is absent, yet `create_from_value` does not fail with
`MissingParameter "actions"` — the invalid description is reported first. -/
theorem create_missing_param_cex :
    (Value.obj [("description", .num 42)]).get "actions" = none ∧
    create_from_value (fun _ => 0) 0 (.obj [("description", .num 42)]) =
      .error (.invalidApiKeyDescription (.num 42)) ∧
    create_from_value (fun _ => 0) 0 (.obj [("description", .num 42)]) ≠
      .error (.missingParameter "actions") := by
  refine ⟨rfl, rfl, ?_⟩
  intro h
  rw [show create_from_value (fun _ => 0) 0 (.obj [("description", .num 42)]) =
      .error (.invalidApiKeyDescription (.num 42)) from rfl] at h
  exact AuthControllerError.noConfusion (Except.error.inj h)

/-- C5 amended: when the `description` entry is valid (absent, null, or a
string), an absent required field makes `create_from_value` fail with
`MissingParameter` naming the first absent field in the source order
`actions`, `indexes`, `expiresAt` (an invalid earlier field preempts). -/
theorem create_missing_param (rand : Nat → Nat) (now : Int) (v : Value)
    (dsc : Option String) (hd : descFromCreate v = .ok dsc) :
    (v.get "actions" = none →
      create_from_value rand now v = .error (.missingParameter "actions")) ∧
    (∀ act as, v.get "actions" = some act → actionsFromValue act = some as →
      v.get "indexes" = none →
      create_from_value rand now v = .error (.missingParameter "indexes")) ∧
    (∀ act as ind is, v.get "actions" = some act →
      actionsFromValue act = some as →
      v.get "indexes" = some ind → indexesFromValue ind = some is →
      v.get "expiresAt" = none →
      create_from_value rand now v = .error (.missingParameter "expiresAt")) := by
  refine ⟨fun ha => ?_, fun act as ha ha2 hi => ?_,
    fun act as ind is ha ha2 hi hi2 he => ?_⟩
  · simp only [create_from_value, hd, ha]
  · simp only [create_from_value, hd, ha, ha2, hi]
  · simp only [create_from_value, hd, ha, ha2, hi, hi2, he]

/-- C5 witness: concrete inputs for the three missing-field cases. -/
theorem create_missing_param_witness :
    create_from_value (fun _ => 0) 0 (.obj []) =
      .error (.missingParameter "actions") ∧
    create_from_value (fun _ => 0) 0 (.obj [("actions", .arr [])]) =
      .error (.missingParameter "indexes") ∧
    create_from_value (fun _ => 0) 0
        (.obj [("actions", .arr []), ("indexes", .arr [])]) =
      .error (.missingParameter "expiresAt") :=
  ⟨(create_missing_param (fun _ => 0) 0 (.obj []) none rfl).1 rfl,
   (create_missing_param (fun _ => 0) 0 (.obj [("actions", .arr [])]) none
      rfl).2.1 _ [] rfl rfl rfl,
   (create_missing_param (fun _ => 0) 0
      (.obj [("actions", .arr []), ("indexes", .arr [])]) none
      rfl).2.2 _ [] _ [] rfl rfl rfl rfl rfl⟩

/-- C6: `parse_expiration_date` returns `none` exactly on a null raw
value; a non-null non-string value and a string matching none of the four
formats both fail with `InvalidExpiresAt` carrying the raw value. -/
theorem parse_expiration_date_null_nonstring (now : Int) :
    (∀ v : Value, parse_expiration_date now v = .ok none ↔ v = .null) ∧
    (∀ v : Value, v ≠ .null → (∀ s, v ≠ .str s) →
      parse_expiration_date now v = .error (.invalidApiKeyExpiresAt v)) ∧
    (∀ s : String, tryFormats s = none →
      parse_expiration_date now (.str s) =
        .error (.invalidApiKeyExpiresAt (.str s))) := by
  refine ⟨fun v => ⟨fun h => ?_, fun h => by subst h; rfl⟩,
    fun v hnull hstr => ?_, fun s hs => ?_⟩
  · cases v with
    | str s =>
      rw [parse_expiration_date] at h
      rcases htry : tryFormats s with _ | d <;> rw [htry] at h
      · exact absurd h (by simp)
      · by_cases hlt : now < d <;> simp [hlt] at h
    | null => rfl
    | bool b => exact Except.noConfusion h
    | num n => exact Except.noConfusion h
    | arr l => exact Except.noConfusion h
    | obj kvs => exact Except.noConfusion h
  · cases v with
    | null => exact absurd rfl hnull
    | str s => exact absurd rfl (hstr s)
    | bool b => rfl
    | num n => rfl
    | arr l => rfl
    | obj kvs => rfl
  · rw [parse_expiration_date, hs]

/-- C6 witness: concrete null, non-string, and unparsable-string inputs. -/
theorem parse_expiration_date_null_nonstring_witness :
    parse_expiration_date 0 .null = .ok none ∧
    parse_expiration_date 0 (.num 7) =
      .error (.invalidApiKeyExpiresAt (.num 7)) ∧
    parse_expiration_date 0 (.str "not-a-date") =
      .error (.invalidApiKeyExpiresAt (.str "not-a-date")) :=
  ⟨((parse_expiration_date_null_nonstring 0).1 .null).mpr rfl,
   (parse_expiration_date_null_nonstring 0).2.1 (.num 7) (by simp)
     (fun s => by simp),
   (parse_expiration_date_null_nonstring 0).2.2 "not-a-date" rfl⟩

/-- C10: empty arrays are accepted for `actions` and `indexes`: creation
succeeds with empty sequences (no emptiness check), and update likewise
accepts them. -/
theorem empty_sequences_accepted (rand : Nat → Nat) (now : Int) (v : Value)
    (dsc : Option String) (exp : Value) (ea : Option Int)
    (hd : descFromCreate v = .ok dsc)
    (ha : v.get "actions" = some (.arr []))
    (hi : v.get "indexes" = some (.arr []))
    (he : v.get "expiresAt" = some exp)
    (he2 : parse_expiration_date now exp = .ok ea) :
    (∃ k : Key, create_from_value rand now v = .ok k ∧
      k.actions = [] ∧ k.indexes = []) ∧
    (∀ (k : Key) (v2 : Value), v2.get "description" = none →
      v2.get "actions" = some (.arr []) → v2.get "indexes" = some (.arr []) →
      v2.get "expiresAt" = none →
      update_from_value k v2 now =
        (none, { k with actions := [], indexes := [], updated_at := now })) := by
  constructor
  · refine ⟨{ description := dsc, id := generate_id rand, actions := [],
              indexes := [], expires_at := ea,
              created_at := now, updated_at := now }, ?_, rfl, rfl⟩
    simp only [create_from_value, hd, ha, hi, he, he2, actionsFromValue,
      indexesFromValue, List.mapM_nil]
  · intro k v2 h1 h2 h3 h4
    simp only [update_from_value, updateActionsStep, updateIndexesStep,
      updateExpiresStep, h1, h2, h3, h4, actionsFromValue, indexesFromValue,
      List.mapM_nil]

/-- C10 witness: concrete creation and update inputs with empty arrays. -/
theorem empty_sequences_accepted_witness :
    (∃ k : Key,
      create_from_value (fun _ => 0) 0
        (.obj [("actions", .arr []), ("indexes", .arr []),
               ("expiresAt", .null)]) = .ok k ∧
      k.actions = [] ∧ k.indexes = []) ∧
    (∀ (k : Key) (v2 : Value), v2.get "description" = none →
      v2.get "actions" = some (.arr []) → v2.get "indexes" = some (.arr []) →
      v2.get "expiresAt" = none →
      update_from_value k v2 0 =
        (none, { k with actions := [], indexes := [], updated_at := 0 })) :=
  empty_sequences_accepted (fun _ => 0) 0 _ none .null none rfl rfl rfl rfl rfl

/-! ### Frame lemmas for the update steps -/

theorem updateExpiresStep_frame (self : Key) (v : Value) (now : Int) :
    (updateExpiresStep self v now).2.id = self.id ∧
    (updateExpiresStep self v now).2.created_at = self.created_at ∧
    (updateExpiresStep self v now).2.description = self.description ∧
    (updateExpiresStep self v now).2.actions = self.actions ∧
    (updateExpiresStep self v now).2.indexes = self.indexes := by
  rcases hg : v.get "expiresAt" with _ | exp
  · simp [updateExpiresStep, hg]
  · rcases hp : parse_expiration_date now exp with e | d <;>
      simp [updateExpiresStep, hg, hp]

theorem updateIndexesStep_frame (self : Key) (v : Value) (now : Int) :
    (updateIndexesStep self v now).2.id = self.id ∧
    (updateIndexesStep self v now).2.created_at = self.created_at ∧
    (updateIndexesStep self v now).2.description = self.description ∧
    (updateIndexesStep self v now).2.actions = self.actions := by
  rcases hg : v.get "indexes" with _ | ind
  · simp only [updateIndexesStep, hg]
    exact ⟨(updateExpiresStep_frame self v now).1,
      (updateExpiresStep_frame self v now).2.1,
      (updateExpiresStep_frame self v now).2.2.1,
      (updateExpiresStep_frame self v now).2.2.2.1⟩
  · rcases hl : indexesFromValue ind with _ | l
    · simp [updateIndexesStep, hg, hl]
    · simp only [updateIndexesStep, hg, hl]
      exact ⟨(updateExpiresStep_frame _ v now).1,
        (updateExpiresStep_frame _ v now).2.1,
        (updateExpiresStep_frame _ v now).2.2.1,
        (updateExpiresStep_frame _ v now).2.2.2.1⟩

theorem updateActionsStep_frame (self : Key) (v : Value) (now : Int) :
    (updateActionsStep self v now).2.id = self.id ∧
    (updateActionsStep self v now).2.created_at = self.created_at ∧
    (updateActionsStep self v now).2.description = self.description := by
  rcases hg : v.get "actions" with _ | act
  · simp only [updateActionsStep, hg]
    exact ⟨(updateIndexesStep_frame self v now).1,
      (updateIndexesStep_frame self v now).2.1,
      (updateIndexesStep_frame self v now).2.2.1⟩
  · rcases ha : actionsFromValue act with _ | a
    · simp [updateActionsStep, hg, ha]
    · simp only [updateActionsStep, hg, ha]
      exact ⟨(updateIndexesStep_frame _ v now).1,
        (updateIndexesStep_frame _ v now).2.1,
        (updateIndexesStep_frame _ v now).2.2.1⟩

theorem update_from_value_frame (self : Key) (v : Value) (now : Int) :
    (update_from_value self v now).2.id = self.id ∧
    (update_from_value self v now).2.created_at = self.created_at := by
  rcases hg : v.get "description" with _ | des
  · simp only [update_from_value, hg]
    exact ⟨(updateActionsStep_frame self v now).1,
      (updateActionsStep_frame self v now).2.1⟩
  · rcases hd : optStringFromValue des with _ | d
    · simp [update_from_value, hg, hd]
    · simp only [update_from_value, hg, hd]
      exact ⟨(updateActionsStep_frame _ v now).1,
        (updateActionsStep_frame _ v now).2.1⟩

theorem updateExpiresStep_success (self : Key) (v : Value) (now : Int)
    (h : (updateExpiresStep self v now).1 = none) :
    (updateExpiresStep self v now).2.updated_at = now := by
  rcases hg : v.get "expiresAt" with _ | exp
  · simp [updateExpiresStep, hg]
  · rcases hp : parse_expiration_date now exp with e | d
    · simp [updateExpiresStep, hg, hp] at h
    · simp [updateExpiresStep, hg, hp]

theorem updateIndexesStep_success (self : Key) (v : Value) (now : Int)
    (h : (updateIndexesStep self v now).1 = none) :
    (updateIndexesStep self v now).2.updated_at = now := by
  rcases hg : v.get "indexes" with _ | ind
  · simp only [updateIndexesStep, hg] at h ⊢
    exact updateExpiresStep_success self v now h
  · rcases hl : indexesFromValue ind with _ | l
    · simp [updateIndexesStep, hg, hl] at h
    · simp only [updateIndexesStep, hg, hl] at h ⊢
      exact updateExpiresStep_success _ v now h

theorem updateActionsStep_success (self : Key) (v : Value) (now : Int)
    (h : (updateActionsStep self v now).1 = none) :
    (updateActionsStep self v now).2.updated_at = now := by
  rcases hg : v.get "actions" with _ | act
  · simp only [updateActionsStep, hg] at h ⊢
    exact updateIndexesStep_success self v now h
  · rcases ha : actionsFromValue act with _ | a
    · simp [updateActionsStep, hg, ha] at h
    · simp only [updateActionsStep, hg, ha] at h ⊢
      exact updateIndexesStep_success _ v now h

theorem update_from_value_success (self : Key) (v : Value) (now : Int)
    (h : (update_from_value self v now).1 = none) :
    (update_from_value self v now).2.updated_at = now := by
  rcases hg : v.get "description" with _ | des
  · simp only [update_from_value, hg] at h ⊢
    exact updateActionsStep_success self v now h
  · rcases hd : optStringFromValue des with _ | d
    · simp [update_from_value, hg, hd] at h
    · simp only [update_from_value, hg, hd] at h ⊢
      exact updateActionsStep_success _ v now h

/-! ### Absent-key lemmas: a field whose key is missing is never touched -/

theorem updateExpiresStep_expires_absent (self : Key) (v : Value) (now : Int)
    (hg : v.get "expiresAt" = none) :
    (updateExpiresStep self v now).2.expires_at = self.expires_at := by
  simp [updateExpiresStep, hg]

theorem updateIndexesStep_expires_absent (self : Key) (v : Value) (now : Int)
    (hg : v.get "expiresAt" = none) :
    (updateIndexesStep self v now).2.expires_at = self.expires_at := by
  rcases hi : v.get "indexes" with _ | ind
  · simp only [updateIndexesStep, hi]
    exact updateExpiresStep_expires_absent self v now hg
  · rcases hl : indexesFromValue ind with _ | l
    · simp [updateIndexesStep, hi, hl]
    · simp only [updateIndexesStep, hi, hl]
      exact updateExpiresStep_expires_absent _ v now hg

theorem updateActionsStep_expires_absent (self : Key) (v : Value) (now : Int)
    (hg : v.get "expiresAt" = none) :
    (updateActionsStep self v now).2.expires_at = self.expires_at := by
  rcases ha : v.get "actions" with _ | act
  · simp only [updateActionsStep, ha]
    exact updateIndexesStep_expires_absent self v now hg
  · rcases ha2 : actionsFromValue act with _ | a
    · simp [updateActionsStep, ha, ha2]
    · simp only [updateActionsStep, ha, ha2]
      exact updateIndexesStep_expires_absent _ v now hg

theorem update_from_value_expires_absent (self : Key) (v : Value) (now : Int)
    (hg : v.get "expiresAt" = none) :
    (update_from_value self v now).2.expires_at = self.expires_at := by
  rcases hd : v.get "description" with _ | des
  · simp only [update_from_value, hd]
    exact updateActionsStep_expires_absent self v now hg
  · rcases hd2 : optStringFromValue des with _ | d
    · simp [update_from_value, hd, hd2]
    · simp only [update_from_value, hd, hd2]
      exact updateActionsStep_expires_absent _ v now hg

theorem updateIndexesStep_indexes_absent (self : Key) (v : Value) (now : Int)
    (hg : v.get "indexes" = none) :
    (updateIndexesStep self v now).2.indexes = self.indexes := by
  simp only [updateIndexesStep, hg]
  exact (updateExpiresStep_frame self v now).2.2.2.2

theorem updateActionsStep_indexes_absent (self : Key) (v : Value) (now : Int)
    (hg : v.get "indexes" = none) :
    (updateActionsStep self v now).2.indexes = self.indexes := by
  rcases ha : v.get "actions" with _ | act
  · simp only [updateActionsStep, ha]
    exact updateIndexesStep_indexes_absent self v now hg
  · rcases ha2 : actionsFromValue act with _ | a
    · simp [updateActionsStep, ha, ha2]
    · simp only [updateActionsStep, ha, ha2]
      exact updateIndexesStep_indexes_absent _ v now hg

theorem update_from_value_indexes_absent (self : Key) (v : Value) (now : Int)
    (hg : v.get "indexes" = none) :
    (update_from_value self v now).2.indexes = self.indexes := by
  rcases hd : v.get "description" with _ | des
  · simp only [update_from_value, hd]
    exact updateActionsStep_indexes_absent self v now hg
  · rcases hd2 : optStringFromValue des with _ | d
    · simp [update_from_value, hd, hd2]
    · simp only [update_from_value, hd, hd2]
      exact updateActionsStep_indexes_absent _ v now hg

theorem updateActionsStep_actions_absent (self : Key) (v : Value) (now : Int)
    (hg : v.get "actions" = none) :
    (updateActionsStep self v now).2.actions = self.actions := by
  simp only [updateActionsStep, hg]
  exact (updateIndexesStep_frame self v now).2.2.2

theorem update_from_value_actions_absent (self : Key) (v : Value) (now : Int)
    (hg : v.get "actions" = none) :
    (update_from_value self v now).2.actions = self.actions := by
  rcases hd : v.get "description" with _ | des
  · simp only [update_from_value, hd]
    exact updateActionsStep_actions_absent self v now hg
  · rcases hd2 : optStringFromValue des with _ | d
    · simp [update_from_value, hd, hd2]
    · simp only [update_from_value, hd, hd2]
      exact updateActionsStep_actions_absent _ v now hg

theorem update_from_value_desc_absent (self : Key) (v : Value) (now : Int)
    (hg : v.get "description" = none) :
    (update_from_value self v now).2.description = self.description := by
  simp only [update_from_value, hg]
  exact (updateActionsStep_frame self v now).2.2

/-- Characterization of a successful creation's timestamps. -/
theorem create_from_value_ok_timestamps (rand : Nat → Nat) (now : Int)
    (v : Value) (k : Key) (h : create_from_value rand now v = .ok k) :
    k.created_at = now ∧ k.updated_at = now := by
  rcases hd : descFromCreate v with e | dsc
  · simp [create_from_value, hd] at h
  rcases ha : v.get "actions" with _ | act
  · simp [create_from_value, hd, ha] at h
  rcases ha2 : actionsFromValue act with _ | as
  · simp [create_from_value, hd, ha, ha2] at h
  rcases hi : v.get "indexes" with _ | ind
  · simp [create_from_value, hd, ha, ha2, hi] at h
  rcases hi2 : indexesFromValue ind with _ | is
  · simp [create_from_value, hd, ha, ha2, hi, hi2] at h
  rcases he : v.get "expiresAt" with _ | exp
  · simp [create_from_value, hd, ha, ha2, hi, hi2, he] at h
  rcases he2 : parse_expiration_date now exp with e | ea
  · simp [create_from_value, hd, ha, ha2, hi, hi2, he, he2] at h
  simp only [create_from_value, hd, ha, ha2, hi, hi2, he, he2,
    Except.ok.injEq] at h
  subst h
  exact ⟨rfl, rfl⟩

/-- A concrete key record used by the counterexamples and witnesses. -/
def sampleKey : Key :=
  { description := some "old", id := ['k'], actions := [],
    indexes := ["idx"], expires_at := none,
    created_at := 0, updated_at := 0 }

/-- C2 counterexample: updating `sampleKey` with a valid description and
an invalid `actions` value reports `InvalidActions`, but the record's
description has already been overwritten — it does not retain its prior
value. -/
theorem update_error_mutates_description_cex :
    (update_from_value sampleKey
        (.obj [("description", .str "new"), ("actions", .num 0)]) 5).1 =
      some (.invalidApiKeyActions (.num 0)) ∧
    (update_from_value sampleKey
        (.obj [("description", .str "new"), ("actions", .num 0)]) 5).2.description =
      some "new" ∧
    (update_from_value sampleKey
        (.obj [("description", .str "new"), ("actions", .num 0)]) 5).2.description ≠
      sampleKey.description := by
  refine ⟨rfl, rfl, ?_⟩
  intro h
  rw [show (update_from_value sampleKey
      (.obj [("description", .str "new"), ("actions", .num 0)]) 5).2.description =
      some "new" from rfl] at h
  have := Option.some.inj h
  exact absurd this (by decide)

/-- C2 amended: with a valid `description` and an invalid `actions` value
in the same update input, the call reports `InvalidActions` and leaves
`indexes`, `expires_at`, `updated_at`, `id` and `created_at` at their
prior values, but `description` — processed before `actions` — has
already been assigned the new value. -/
theorem update_invalid_actions (k : Key) (v : Value) (now : Int)
    (des act : Value) (d : Option String)
    (h1 : v.get "description" = some des)
    (h2 : optStringFromValue des = some d)
    (h3 : v.get "actions" = some act)
    (h4 : actionsFromValue act = none) :
    update_from_value k v now =
      (some (.invalidApiKeyActions act), { k with description := d }) := by
  simp only [update_from_value, h1, h2, updateActionsStep, h3, h4]

/-- C2 witness: the amended theorem at the counterexample's input. -/
theorem update_invalid_actions_witness :
    update_from_value sampleKey
        (.obj [("description", .str "new"), ("actions", .num 0)]) 5 =
      (some (.invalidApiKeyActions (.num 0)),
       { sampleKey with description := some "new" }) :=
  update_invalid_actions sampleKey _ 5 (.str "new") (.num 0) (some "new")
    rfl rfl rfl rfl

/-- C7: a successful update whose input contains only a string
`description` changes only `description` and `updated_at` (the latter
strictly increasing when the clock advanced), and in general every field
whose key is absent from the update input retains its previous value. -/
theorem update_description_only_frame (k : Key) (v : Value) (now : Int)
    (s : String) :
    (v.get "description" = some (.str s) → v.get "actions" = none →
     v.get "indexes" = none → v.get "expiresAt" = none →
      update_from_value k v now =
        (none, { k with description := some s, updated_at := now }) ∧
      (k.updated_at < now →
        k.updated_at < (update_from_value k v now).2.updated_at)) ∧
    ((v.get "description" = none →
        (update_from_value k v now).2.description = k.description) ∧
     (v.get "actions" = none →
        (update_from_value k v now).2.actions = k.actions) ∧
     (v.get "indexes" = none →
        (update_from_value k v now).2.indexes = k.indexes) ∧
     (v.get "expiresAt" = none →
        (update_from_value k v now).2.expires_at = k.expires_at) ∧
     (update_from_value k v now).2.id = k.id ∧
     (update_from_value k v now).2.created_at = k.created_at) := by
  constructor
  · intro h1 h2 h3 h4
    have heq : update_from_value k v now =
        (none, { k with description := some s, updated_at := now }) := by
      simp only [update_from_value, h1, optStringFromValue,
        updateActionsStep, h2, updateIndexesStep, h3, updateExpiresStep, h4]
    refine ⟨heq, fun hlt => ?_⟩
    rw [heq]
    exact hlt
  · exact ⟨update_from_value_desc_absent k v now,
      update_from_value_actions_absent k v now,
      update_from_value_indexes_absent k v now,
      update_from_value_expires_absent k v now,
      (update_from_value_frame k v now).1,
      (update_from_value_frame k v now).2⟩

/-- C7 witness: a description-only update of `sampleKey` at a later
clock instant. -/
theorem update_description_only_frame_witness :
    update_from_value sampleKey (.obj [("description", .str "txt")]) 5 =
      (none, { sampleKey with description := some "txt", updated_at := 5 }) ∧
    sampleKey.updated_at <
      (update_from_value sampleKey (.obj [("description", .str "txt")]) 5).2.updated_at := by
  have h := (update_description_only_frame sampleKey
    (.obj [("description", .str "txt")]) 5 "txt").1 rfl rfl rfl rfl
  exact ⟨h.1, h.2 (by decide)⟩

/-- C8: `create_from_value` sets `created_at = updated_at`;
`update_from_value` never modifies `id` or `created_at` (even on error)
and on success sets `updated_at` to the current time, so the invariant
`created_at ≤ updated_at` is established by creation and preserved by
every update made at or after `created_at`. -/
theorem key_timestamp_invariant (rand : Nat → Nat) (now : Int) (v : Value)
    (k : Key) :
    (∀ k' : Key, create_from_value rand now v = .ok k' →
      k'.created_at = k'.updated_at) ∧
    (update_from_value k v now).2.id = k.id ∧
    (update_from_value k v now).2.created_at = k.created_at ∧
    ((update_from_value k v now).1 = none →
      (update_from_value k v now).2.updated_at = now) ∧
    (k.created_at ≤ now → (update_from_value k v now).1 = none →
      (update_from_value k v now).2.created_at ≤
        (update_from_value k v now).2.updated_at) := by
  refine ⟨fun k' h => ?_, (update_from_value_frame k v now).1,
    (update_from_value_frame k v now).2, update_from_value_success k v now,
    fun hle hok => ?_⟩
  · obtain ⟨h1, h2⟩ := create_from_value_ok_timestamps rand now v k' h
    rw [h1, h2]
  · rw [(update_from_value_frame k v now).2,
      update_from_value_success k v now hok]
    exact hle

/-- C8 witness: creation and a description-only update of the created
record, at concrete instants. -/
theorem key_timestamp_invariant_witness :
    (∀ k' : Key,
      create_from_value (fun _ => 0) 3
          (.obj [("actions", .arr []), ("indexes", .arr []),
                 ("expiresAt", .null)]) = .ok k' →
      k'.created_at = k'.updated_at) ∧
    (update_from_value sampleKey (.obj [("description", .str "txt")]) 5).2.id =
      sampleKey.id ∧
    (update_from_value sampleKey (.obj [("description", .str "txt")]) 5).2.created_at =
      sampleKey.created_at ∧
    (update_from_value sampleKey (.obj [("description", .str "txt")]) 5).2.created_at ≤
      (update_from_value sampleKey (.obj [("description", .str "txt")]) 5).2.updated_at := by
  obtain ⟨h1, -, -, -, -⟩ := key_timestamp_invariant (fun _ => 0) 3
    (.obj [("actions", .arr []), ("indexes", .arr []), ("expiresAt", .null)])
    sampleKey
  obtain ⟨-, h2, h3, -, h5⟩ := key_timestamp_invariant (fun _ => 0) 5
    (.obj [("description", .str "txt")]) sampleKey
  exact ⟨h1, h2, h3, h5 (by decide) rfl⟩

/-- C9: the default admin and search constructors yield `expires_at =
none`, the fixed actions and indexes of their role, and an id equal to a
fresh run of the generator — distinct across calls whenever the two
random streams differ at some position. -/
theorem default_keys_shape (r : Nat → Nat) (now : Int) :
    (default_admin r now).expires_at = none ∧
    (default_admin r now).actions = [.all] ∧
    (default_admin r now).indexes = ["*"] ∧
    (default_admin r now).id = generate_id r ∧
    (default_search r now).expires_at = none ∧
    (default_search r now).actions = [.search] ∧
    (default_search r now).indexes = ["*"] ∧
    (default_search r now).id = generate_id r ∧
    (∀ (r2 : Nat → Nat) (n2 : Int) (i : Nat), i < KEY_ID_LENGTH →
      r i % 62 ≠ r2 i % 62 →
      (default_admin r now).id ≠ (default_admin r2 n2).id ∧
      (default_search r now).id ≠ (default_search r2 n2).id ∧
      (default_admin r now).id ≠ (default_search r2 n2).id) := by
  refine ⟨rfl, rfl, rfl, rfl, rfl, rfl, rfl, rfl,
    fun r2 n2 i hi hne => ?_⟩
  exact ⟨generate_id_ne r r2 i hi hne, generate_id_ne r r2 i hi hne,
    generate_id_ne r r2 i hi hne⟩

/-- C9 witness: two calls whose random streams differ at position 0. -/
theorem default_keys_shape_witness :
    (default_admin (fun _ => 0) 0).expires_at = none ∧
    (default_admin (fun _ => 0) 0).actions = [.all] ∧
    (default_admin (fun _ => 0) 0).indexes = ["*"] ∧
    (default_search (fun _ => 0) 0).expires_at = none ∧
    (default_search (fun _ => 0) 0).actions = [.search] ∧
    (default_search (fun _ => 0) 0).indexes = ["*"] ∧
    (default_admin (fun _ => 0) 0).id ≠ (default_admin (fun _ => 1) 1).id ∧
    (default_search (fun _ => 0) 0).id ≠ (default_search (fun _ => 1) 1).id := by
  obtain ⟨h1, h2, h3, -, h5, h6, h7, -, h9⟩ :=
    default_keys_shape (fun _ => 0) 0
  obtain ⟨ha, hs, -⟩ := h9 (fun _ => 1) 1 0 (by decide) (by decide)
  exact ⟨h1, h2, h3, h5, h6, h7, ha, hs⟩

/-! ### Prefix stability of the fixed-width parsers

Each primitive parser consumes a fixed prefix, so a successful parse is
unaffected by appending further input; this is what lets the same date
prefix be shared by the four accepted renderings. -/

theorem toList_append (a b : String) :
    (a ++ b).toList = a.toList ++ b.toList :=
  String.data_append a b

theorem parseDigitsAux_append (n : Nat) :
    ∀ (acc : Nat) (l r t : List Char) (v : Nat),
      parseDigitsAux n acc l = some (v, r) →
      parseDigitsAux n acc (l ++ t) = some (v, r ++ t) := by
  induction n with
  | zero =>
    intro acc l r t v h
    simp only [parseDigitsAux, Option.some.injEq, Prod.mk.injEq] at h ⊢
    exact ⟨h.1, by rw [h.2]⟩
  | succ n ih =>
    intro acc l r t v h
    cases l with
    | nil => exact Option.noConfusion h
    | cons c l' =>
      by_cases hc : c.isDigit
      · simp only [parseDigitsAux, hc, if_true, List.cons_append] at h ⊢
        exact ih _ l' r t v h
      · simp [parseDigitsAux, hc] at h

theorem parseNDigits_append (n : Nat) (l r t : List Char) (v : Nat)
    (h : parseNDigits n l = some (v, r)) :
    parseNDigits n (l ++ t) = some (v, r ++ t) :=
  parseDigitsAux_append n 0 l r t v h

theorem parseLit_append (c : Char) (l r t : List Char)
    (h : parseLit c l = some r) : parseLit c (l ++ t) = some (r ++ t) := by
  cases l with
  | nil => exact Option.noConfusion h
  | cons x l' =>
    by_cases hx : x = c
    · simp only [parseLit, hx, if_true, Option.some.injEq,
        List.cons_append] at h ⊢
      rw [h]
    · simp [parseLit, hx] at h

theorem parseDate_append (l r t : List Char) (ymd : Nat × Nat × Nat)
    (h : parseDate l = some (ymd, r)) :
    parseDate (l ++ t) = some (ymd, r ++ t) := by
  rcases h1 : parseNDigits 4 l with _ | ⟨y, l1⟩
  · simp [parseDate, h1] at h
  simp only [parseDate, h1] at h
  rcases h2 : parseLit '-' l1 with _ | l2
  · simp [h2] at h
  simp only [h2] at h
  rcases h3 : parseNDigits 2 l2 with _ | ⟨m, l3⟩
  · simp [h3] at h
  simp only [h3] at h
  rcases h4 : parseLit '-' l3 with _ | l4
  · simp [h4] at h
  simp only [h4] at h
  rcases h5 : parseNDigits 2 l4 with _ | ⟨d, l5⟩
  · simp [h5] at h
  simp only [h5] at h
  by_cases hv : 1 ≤ m ∧ m ≤ 12 ∧ 1 ≤ d ∧ d ≤ daysInMonth y m
  · rw [if_pos hv] at h
    obtain ⟨hymd, hr⟩ := Prod.mk.injEq .. ▸ Option.some.inj h
    simp only [parseDate, parseNDigits_append 4 l l1 t y h1,
      parseLit_append '-' l1 l2 t h2, parseNDigits_append 2 l2 l3 t m h3,
      parseLit_append '-' l3 l4 t h4, parseNDigits_append 2 l4 l5 t d h5,
      if_pos hv]
    rw [hymd, hr]
  · rw [if_neg hv] at h
    exact Option.noConfusion h

/-- C3: a string that parses under one of the four accepted formats to an
instant `d` is accepted (as `Some d`) if and only if `d` is strictly later
than now; when `d` is now or earlier, the call fails with
`InvalidExpiresAt` carrying the raw value. -/
theorem parse_expiration_future_iff (now : Int) (s : String) (d : Int)
    (h : tryFormats s = some d) :
    (parse_expiration_date now (.str s) = .ok (some d) ↔ now < d) ∧
    (d ≤ now → parse_expiration_date now (.str s) =
      .error (.invalidApiKeyExpiresAt (.str s))) := by
  constructor
  · constructor
    · intro hp
      by_contra hlt
      simp only [parse_expiration_date, h] at hp
      rw [if_neg hlt] at hp
      exact Except.noConfusion hp
    · intro hlt
      simp only [parse_expiration_date, h]
      rw [if_pos hlt]
  · intro hle
    simp only [parse_expiration_date, h]
    rw [if_neg (not_lt.mpr hle)]

/-- C3 witness: a far-future date from `now = 0`, and a date exactly equal
to `now` being rejected. -/
theorem parse_expiration_future_iff_witness :
    (parse_expiration_date 0 (.str "9999-12-31") =
        .ok (some (timestampOf 9999 12 31 0 0 0 0 0)) ↔
      (0 : Int) < timestampOf 9999 12 31 0 0 0 0 0) ∧
    (timestampOf 9999 12 31 0 0 0 0 0 ≤ 0 →
      parse_expiration_date 0 (.str "9999-12-31") =
        .error (.invalidApiKeyExpiresAt (.str "9999-12-31"))) ∧
    parse_expiration_date (timestampOf 2000 1 1 0 0 0 0 0)
        (.str "2000-01-01") =
      .error (.invalidApiKeyExpiresAt (.str "2000-01-01")) :=
  ⟨(parse_expiration_future_iff 0 "9999-12-31" _ rfl).1,
   (parse_expiration_future_iff 0 "9999-12-31" _ rfl).2,
   (parse_expiration_future_iff (timestampOf 2000 1 1 0 0 0 0 0)
      "2000-01-01" _ rfl).2 (le_refl _)⟩

/-- C4: for a date string rendering a future calendar day, the four
renderings `<date>T00:00:00Z`, `<date>T00:00:00`, `<date> 00:00:00` and
`<date>` are all accepted by `parse_expiration_date` and all yield the
same normalized timestamp (UTC midnight of that day). -/
theorem four_formats_agree (s : String) (y m d : Nat) (now : Int)
    (hD : parseDate s.toList = some ((y, m, d), []))
    (hfut : now < timestampOf y m d 0 0 0 0 0) :
    parse_expiration_date now (.str (s ++ "T00:00:00Z")) =
      .ok (some (timestampOf y m d 0 0 0 0 0)) ∧
    parse_expiration_date now (.str (s ++ "T00:00:00")) =
      .ok (some (timestampOf y m d 0 0 0 0 0)) ∧
    parse_expiration_date now (.str (s ++ " 00:00:00")) =
      .ok (some (timestampOf y m d 0 0 0 0 0)) ∧
    parse_expiration_date now (.str s) =
      .ok (some (timestampOf y m d 0 0 0 0 0)) := by
  have hDZ := parseDate_append s.toList [] ("T00:00:00Z".toList) (y, m, d) hD
  have hDT := parseDate_append s.toList [] ("T00:00:00".toList) (y, m, d) hD
  have hDS := parseDate_append s.toList [] (" 00:00:00".toList) (y, m, d) hD
  rw [List.nil_append] at hDZ hDT hDS
  have hZ : tryFormats (s ++ "T00:00:00Z") =
      some (timestampOf y m d 0 0 0 0 0) := by
    have h1 : parseRfc3339 (s ++ "T00:00:00Z") =
        some (timestampOf y m d 0 0 0 0 0) := by
      unfold parseRfc3339
      rw [toList_append, hDZ]
      rfl
    unfold tryFormats
    rw [h1]
    rfl
  have hT : tryFormats (s ++ "T00:00:00") =
      some (timestampOf y m d 0 0 0 0 0) := by
    have h1 : parseRfc3339 (s ++ "T00:00:00") = none := by
      unfold parseRfc3339
      rw [toList_append, hDT]
      rfl
    have h2 : parsePrimSep 'T' (s ++ "T00:00:00") =
        some (timestampOf y m d 0 0 0 0 0) := by
      unfold parsePrimSep
      rw [toList_append, hDT]
      rfl
    unfold tryFormats
    rw [h1, h2]
    rfl
  have hS : tryFormats (s ++ " 00:00:00") =
      some (timestampOf y m d 0 0 0 0 0) := by
    have h1 : parseRfc3339 (s ++ " 00:00:00") = none := by
      unfold parseRfc3339
      rw [toList_append, hDS]
      rfl
    have h2 : parsePrimSep 'T' (s ++ " 00:00:00") = none := by
      unfold parsePrimSep
      rw [toList_append, hDS]
      rfl
    have h3 : parsePrimSep ' ' (s ++ " 00:00:00") =
        some (timestampOf y m d 0 0 0 0 0) := by
      unfold parsePrimSep
      rw [toList_append, hDS]
      rfl
    unfold tryFormats
    rw [h1, h2, h3]
    rfl
  have hB : tryFormats s = some (timestampOf y m d 0 0 0 0 0) := by
    have h1 : parseRfc3339 s = none := by
      unfold parseRfc3339
      rw [hD]
      rfl
    have h2 : parsePrimSep 'T' s = none := by
      unfold parsePrimSep
      rw [hD]
      rfl
    have h3 : parsePrimSep ' ' s = none := by
      unfold parsePrimSep
      rw [hD]
      rfl
    have h4 : parseDateOnly s = some (timestampOf y m d 0 0 0 0 0) := by
      unfold parseDateOnly
      rw [hD]
    unfold tryFormats
    rw [h1, h2, h3, h4]
    rfl
  refine ⟨?_, ?_, ?_, ?_⟩
  · simp only [parse_expiration_date, hZ]
    rw [if_pos hfut]
  · simp only [parse_expiration_date, hT]
    rw [if_pos hfut]
  · simp only [parse_expiration_date, hS]
    rw [if_pos hfut]
  · simp only [parse_expiration_date, hB]
    rw [if_pos hfut]

/-- C4 witness: the four renderings of 9999-12-31 from `now = 0`. -/
theorem four_formats_agree_witness :
    parse_expiration_date 0 (.str ("9999-12-31" ++ "T00:00:00Z")) =
      .ok (some (timestampOf 9999 12 31 0 0 0 0 0)) ∧
    parse_expiration_date 0 (.str ("9999-12-31" ++ "T00:00:00")) =
      .ok (some (timestampOf 9999 12 31 0 0 0 0 0)) ∧
    parse_expiration_date 0 (.str ("9999-12-31" ++ " 00:00:00")) =
      .ok (some (timestampOf 9999 12 31 0 0 0 0 0)) ∧
    parse_expiration_date 0 (.str "9999-12-31") =
      .ok (some (timestampOf 9999 12 31 0 0 0 0 0)) :=
  four_formats_agree "9999-12-31" 9999 12 31 0 (by decide) (by decide)

end KeyCore
